import Mathlib

/-!
Verification development for the `useRasa` React hook (src/src/main.tsx).

The hook is shallowly embedded as a state machine: `HookState` holds the
pieces of mutable state of the hook (the `status` and `history` React
states, the `sessionRef` ref, and a counter standing for the `uuidv4`
id generator).  Inbound socket events, application-level `utter` calls
and quick-reply clicks are the inputs (`InEvent`); socket emissions are
the observable outputs (`OutEvent`).  Every definition mirrors the
corresponding place in `main.tsx`.
-/

namespace ReactRasa

/-- `RasaMessageType` enum of main.tsx. -/
inductive RasaMessageType where
  | attachment
  | text
  | quickReply
  | buttons
  | unknown
  | uploader
deriving DecidableEq, Repr, Inhabited

/-- `RasaStatus` enum of main.tsx. -/
inductive RasaStatus where
  | connecting
  | connected
  | waitingForResponse
  | disconnected
  | error
deriving DecidableEq, Repr, Inhabited

/-- One element of `quick_replies` (the `SocketIOBotQuickReply` option
shape).  The `onClick` closure is not stored: its captured data
(message id, option index, payload) is supplied by the `click` input
event instead. -/
structure QuickReplyOption where
  content_type : String
  title : String
  payload : String
  clicked : Option Bool
deriving DecidableEq, Repr, Inhabited

/-- The `SocketIOBotAttachment.attachment` shape (`payload.src` flattened). -/
structure RasaAttachment where
  src : String
  attachmentType : String
deriving DecidableEq, Repr, Inhabited

/-- `SocketIOUtterBot`: a raw inbound bot payload, all fields optional
(`Partial` of the three shapes).  An `Option` field is `some` exactly
when the JS object has the property. -/
structure SocketIOUtterBot where
  text : Option String
  quick_replies : Option (List QuickReplyOption)
  attachment : Option RasaAttachment
  clicked : Option Bool
deriving DecidableEq, Repr, Inhabited

/-- `RasaMessage = SocketIOUtterBot & RasaMetaInformation`. -/
structure RasaMessage where
  text : Option String
  quick_replies : Option (List QuickReplyOption)
  attachment : Option RasaAttachment
  clicked : Option Bool
  id : Nat
  received : Bool
  type : RasaMessageType
deriving DecidableEq, Repr, Inhabited

/-- The mutable state of one `useRasa` hook instance: `status` and
`history` (React states), `sessionRef` (`none` = `undefined`), and
`nextId`, a fresh-id counter standing for `uuidv4` (each generated id
is the current counter value; real uuids are merely fresh). -/
structure HookState where
  status : RasaStatus
  history : List RasaMessage
  session : Option String
  nextId : Nat
deriving DecidableEq, Repr, Inhabited

/-- Hook configuration relevant to the claims: the optional
`sendOnConnect` argument. -/
structure RasaConfig where
  sendOnConnect : Option String
deriving DecidableEq, Repr, Inhabited

/-- Events emitted on the socket (`ClientEvents`). -/
inductive OutEvent where
  | user_uttered (session_id : String) (message : String)
  | session_request (session_id : Option String)
deriving DecidableEq, Repr, Inhabited

/-- Inputs driving the hook: inbound socket events (`RasaServerEvents`
plus transport lifecycle) and application-level actions (`utter` calls
and quick-reply `onClick` invocations, the latter carrying the data the
closure captured at creation: message id, option index, payload). -/
inductive InEvent where
  | connect
  | session_confirm (sid : String)
  | bot_uttered (m : SocketIOUtterBot)
  | disconnect
  | error
  | utterCall (message : String)
  | click (mid : Nat) (i1 : Nat) (payload : String)
deriving DecidableEq, Repr, Inhabited

/-- JavaScript `a || b` on an optional string: `undefined` and `""` are
falsy. -/
def jsOr (s : Option String) (d : String) : String :=
  match s with
  | none => d
  | some v => if v = "" then d else v

/-- JavaScript truthiness of an optional string (`if (sendOnConnect)`). -/
def jsTruthy (o : Option String) : Bool :=
  match o with
  | none => false
  | some s => !(s == "")

/-- `payload.startsWith("/")`: the first character is `/`. -/
def startsWithSlash (s : String) : Bool :=
  match s.data with
  | [] => false
  | c :: _ => c == '/'

/-- `getType` of main.tsx: classify a raw inbound payload by strict
priority (`attachment`, then `quick_replies`, then `text`, else
unknown), where presence of a field is `hasOwnProperty`. -/
def getType (message : SocketIOUtterBot) : RasaMessageType :=
  if message.attachment.isSome then RasaMessageType.attachment
  else if message.quick_replies.isSome then RasaMessageType.quickReply
  else if message.text.isSome then RasaMessageType.text
  else RasaMessageType.unknown

/-- The user-authored text message `utter` appends (lines 106-114 of
main.tsx), with the fresh id drawn from the counter. -/
def textMessage (st : HookState) (message : String) : RasaMessage :=
  { text := some message
    quick_replies := none
    attachment := none
    clicked := none
    id := st.nextId
    received := false
    type := RasaMessageType.text }

/-- One primitive side effect of the hook body, used to state in which
order `utter` performs its effects. -/
inductive Effect where
  | emit (e : OutEvent)
  | setStatus (s : RasaStatus)
  | appendHistory (m : RasaMessage)
deriving DecidableEq, Repr, Inhabited

/-- The effects of `utter(message)` in the order the statements occur in
the source: emit `user_uttered` first, then set the status, then append
the text message to the history. -/
def utterEffects (st : HookState) (message : String) : List Effect :=
  [Effect.emit (OutEvent.user_uttered (jsOr st.session ("")) message),
   Effect.setStatus RasaStatus.waitingForResponse,
   Effect.appendHistory (textMessage st message)]

/-- State transition of one primitive effect (emissions leave the state
alone; an append also consumes a fresh id). -/
def applyEffect (st : HookState) (e : Effect) : HookState :=
  match e with
  | Effect.emit _ => st
  | Effect.setStatus s => { st with status := s }
  | Effect.appendHistory m =>
      { st with history := st.history ++ [m], nextId := st.nextId + 1 }

/-- Run a list of effects left to right. -/
def runEffects (st : HookState) (es : List Effect) : HookState :=
  es.foldl applyEffect st

/-- Net result of `utter(message)`: the new hook state and the list of
emitted socket events. -/
def utter (st : HookState) (message : String) : HookState × List OutEvent :=
  ({ st with
      status := RasaStatus.waitingForResponse
      history := st.history ++ [textMessage st message]
      nextId := st.nextId + 1 },
   [OutEvent.user_uttered (jsOr st.session ("")) message])

/-- `Array.prototype.findIndex`, returning `none` for `-1`. -/
def findIndex (p : RasaMessage → Bool) : List RasaMessage → Option Nat
  | [] => none
  | m :: rest => if p m then some 0 else (findIndex p rest).map (· + 1)

/-- `quick_replies.map((q2, i2) => ({...q2, clicked: i1 === i2}))`,
with `i2` counting from `k`. -/
def resolveOptionsFrom (i1 : Nat) (k : Nat) :
    List QuickReplyOption → List QuickReplyOption
  | [] => []
  | q :: rest =>
      { q with clicked := some (i1 == k) } :: resolveOptionsFrom i1 (k + 1) rest

/-- The rewritten option list after a click on option `i1`. -/
def resolveOptions (qs : List QuickReplyOption) (i1 : Nat) :
    List QuickReplyOption :=
  resolveOptionsFrom i1 0 qs

/-- The in-place mutation of lines 155-161: rewrite the option list
(when present) so that exactly option `i1` is clicked, and set the
message's own `clicked` flag. -/
def resolveMessage (m : RasaMessage) (i1 : Nat) : RasaMessage :=
  { m with
      quick_replies := m.quick_replies.map (fun qs => resolveOptions qs i1)
      clicked := some true }

/-- The `onClick` closure of a quick-reply option (lines 147-171):
first `utter(payload)`, then, if the payload starts with `/`, locate
the message by id in the (just extended) history — throwing if absent —
and mutate it into its resolved state; otherwise filter the message out
of the history. -/
def onClick (st : HookState) (mid : Nat) (i1 : Nat) (payload : String) :
    Except String (HookState × List OutEvent) :=
  let st1 := (utter st payload).1
  let out := (utter st payload).2
  if startsWithSlash payload then
    match findIndex (fun v => v.id == mid) st1.history with
    | none => Except.error ("Couldnt find")
    | some index =>
        Except.ok
          ({ st1 with
              history :=
                st1.history.set index
                  (resolveMessage (st1.history.getD index default) i1) },
           out)
  else
    Except.ok
      ({ st1 with history := st1.history.filter (fun r => r.id != mid) },
       out)

/-- The handler the hook installs for each input event (lines 124-185,
plus the exposed `utter` and the quick-reply `onClick` closures). -/
def handleEvent (cfg : RasaConfig) (st : HookState) (ev : InEvent) :
    Except String (HookState × List OutEvent) :=
  match ev with
  | InEvent.connect =>
      Except.ok ({ st with status := RasaStatus.connected },
                 [OutEvent.session_request st.session])
  | InEvent.session_confirm sid =>
      let st1 := { st with session := some sid }
      if jsTruthy cfg.sendOnConnect then
        Except.ok (utter st1 (cfg.sendOnConnect.getD ("")))
      else
        Except.ok (st1, [])
  | InEvent.bot_uttered m =>
      let response : RasaMessage :=
        { text := m.text
          quick_replies :=
            m.quick_replies.map
              (fun qs => qs.map (fun q => { q with clicked := some false }))
          attachment := m.attachment
          clicked := m.clicked
          id := st.nextId
          received := true
          type := getType m }
      Except.ok ({ st with
                    history := st.history ++ [response]
                    status := RasaStatus.connected
                    nextId := st.nextId + 1 },
                 [])
  | InEvent.disconnect =>
      Except.ok ({ st with status := RasaStatus.disconnected }, [])
  | InEvent.error =>
      Except.ok ({ st with status := RasaStatus.error }, [])
  | InEvent.utterCall message =>
      Except.ok (utter st message)
  | InEvent.click mid i1 payload =>
      onClick st mid i1 payload

/-- Run a sequence of input events, collecting all emitted socket
events; an uncaught throw aborts the run. -/
def run (cfg : RasaConfig) (st : HookState) :
    List InEvent → Except String (HookState × List OutEvent)
  | [] => Except.ok (st, [])
  | ev :: rest =>
    match handleEvent cfg st ev with
    | Except.error e => Except.error e
    | Except.ok (st1, out1) =>
      match run cfg st1 rest with
      | Except.error e => Except.error e
      | Except.ok (st2, out2) => Except.ok (st2, out1 ++ out2)

/-- Hook state right after mount: `useState` initial values, empty
session ref, line 122 has set the status to `connecting`. -/
def initState : HookState :=
  { status := RasaStatus.connecting
    history := []
    session := none
    nextId := 0 }

/-! ### Observation helpers used in theorem statements -/

/-- The emitted events of a run, empty on an uncaught throw. -/
def outOf (r : Except String (HookState × List OutEvent)) : List OutEvent :=
  match r with
  | Except.ok p => p.2
  | Except.error _ => []

/-- Is this emission a `user_uttered` event? -/
def isUserUttered : OutEvent → Bool
  | OutEvent.user_uttered _ _ => true
  | _ => false

/-- Does this emission, when it is a `user_uttered` event, carry session
id `t`? -/
def utteredSessionIs (t : String) : OutEvent → Bool
  | OutEvent.user_uttered s _ => s == t
  | _ => true

/-- Is this input a `session_confirm` event? -/
def isSessionConfirm : InEvent → Bool
  | InEvent.session_confirm _ => true
  | _ => false

/-- Is this input a transport-level socket event (as opposed to an
application-level `utter` call or quick-reply click)? -/
def isTransportEvent : InEvent → Bool
  | InEvent.connect => true
  | InEvent.bot_uttered _ => true
  | InEvent.disconnect => true
  | InEvent.error => true
  | _ => false

/-- Is this effect the emission of a `user_uttered` event? -/
def isEmitUser : Effect → Bool
  | Effect.emit (OutEvent.user_uttered _ _) => true
  | _ => false

/-- Is this effect a history append? -/
def isAppend : Effect → Bool
  | Effect.appendHistory _ => true
  | _ => false

/-- How many options of the list carry `clicked = true`. -/
def clickedCount (qs : List QuickReplyOption) : Nat :=
  qs.countP (fun q => q.clicked == some true)

/-- The hook state `onClick` produces when a command-prefixed click
keeps the quick-reply message: the message at `index` is mutated into
its resolved state and the utterance's text message is appended. -/
def clickKeepState (st : HookState) (index i1 : Nat) (payload : String) :
    HookState :=
  { st with
      status := RasaStatus.waitingForResponse
      history :=
        st.history.set index
            (resolveMessage (st.history.getD index default) i1)
          ++ [textMessage st payload]
      nextId := st.nextId + 1 }

/-- The hook state `onClick` produces when a non-command click removes
the quick-reply message: every message with the clicked id is filtered
out and the utterance's text message is appended. -/
def clickRemoveState (st : HookState) (mid : Nat) (payload : String) :
    HookState :=
  { st with
      status := RasaStatus.waitingForResponse
      history :=
        st.history.filter (fun r => r.id != mid) ++ [textMessage st payload]
      nextId := st.nextId + 1 }

/-! ### Helper lemmas about `findIndex`, `List.set` and `List.getD` -/

theorem findIndex_nil (p : RasaMessage → Bool) : findIndex p [] = none := rfl

theorem findIndex_cons (p : RasaMessage → Bool) (a : RasaMessage)
    (rest : List RasaMessage) :
    findIndex p (a :: rest) =
      if p a then some 0 else (findIndex p rest).map (· + 1) := rfl

theorem findIndex_append_some {p : RasaMessage → Bool} {l1 : List RasaMessage}
    {i : Nat} (l2 : List RasaMessage) (h : findIndex p l1 = some i) :
    findIndex p (l1 ++ l2) = some i := by
  induction l1 generalizing i with
  | nil => simp [findIndex_nil] at h
  | cons a rest ih =>
    rw [List.cons_append, findIndex_cons]
    rw [findIndex_cons] at h
    by_cases hpa : p a
    · rw [if_pos hpa] at h ⊢
      exact h
    · rw [if_neg hpa] at h ⊢
      rcases Option.map_eq_some'.mp h with ⟨j, hj, hji⟩
      rw [ih hj]
      simpa using hji

theorem findIndex_lt_length {p : RasaMessage → Bool} {l : List RasaMessage}
    {i : Nat} (h : findIndex p l = some i) : i < l.length := by
  induction l generalizing i with
  | nil => simp [findIndex_nil] at h
  | cons a rest ih =>
    rw [findIndex_cons] at h
    by_cases hpa : p a
    · rw [if_pos hpa] at h
      simp only [Option.some.injEq] at h
      subst h
      simp
    · rw [if_neg hpa] at h
      rcases Option.map_eq_some'.mp h with ⟨j, hj, hji⟩
      have := ih hj
      simp only [List.length_cons]
      omega

theorem findIndex_getD {p : RasaMessage → Bool} {l : List RasaMessage}
    {i : Nat} (d : RasaMessage) (h : findIndex p l = some i) :
    p (l.getD i d) = true := by
  induction l generalizing i with
  | nil => simp [findIndex_nil] at h
  | cons a rest ih =>
    rw [findIndex_cons] at h
    by_cases hpa : p a
    · rw [if_pos hpa] at h
      simp only [Option.some.injEq] at h
      subst h
      simpa using hpa
    · rw [if_neg hpa] at h
      rcases Option.map_eq_some'.mp h with ⟨j, hj, hji⟩
      subst hji
      simpa using ih hj

theorem findIndex_none_all {p : RasaMessage → Bool} {l : List RasaMessage}
    (h : findIndex p l = none) : ∀ m ∈ l, p m = false := by
  induction l with
  | nil => simp
  | cons a rest ih =>
    rw [findIndex_cons] at h
    by_cases hpa : p a
    · rw [if_pos hpa] at h
      simp at h
    · rw [if_neg hpa] at h
      intro m hm
      rcases List.mem_cons.mp hm with rfl | hm'
      · simpa using hpa
      · exact ih (Option.map_eq_none'.mp h) m hm'

theorem findIndex_append_none {p : RasaMessage → Bool}
    {l1 l2 : List RasaMessage} (h1 : findIndex p l1 = none)
    (h2 : findIndex p l2 = none) : findIndex p (l1 ++ l2) = none := by
  induction l1 with
  | nil => simpa using h2
  | cons a rest ih =>
    rw [List.cons_append, findIndex_cons]
    rw [findIndex_cons] at h1
    by_cases hpa : p a
    · rw [if_pos hpa] at h1
      simp at h1
    · rw [if_neg hpa] at h1 ⊢
      rw [ih (Option.map_eq_none'.mp h1)]
      rfl

theorem set_append_of_lt {α : Type} {l1 l2 : List α} {i : Nat}
    (h : i < l1.length) (a : α) : (l1 ++ l2).set i a = l1.set i a ++ l2 := by
  induction l1 generalizing i with
  | nil => simp at h
  | cons x rest ih =>
    cases i with
    | zero => simp
    | succ n =>
      simp only [List.cons_append, List.set_cons_succ, List.cons.injEq,
        true_and]
      exact ih (by simpa using h)

theorem getD_append_of_lt {α : Type} {l1 l2 : List α} {i : Nat}
    (h : i < l1.length) (d : α) : (l1 ++ l2).getD i d = l1.getD i d := by
  induction l1 generalizing i with
  | nil => simp at h
  | cons x rest ih =>
    cases i with
    | zero => simp
    | succ n =>
      simp only [List.cons_append, List.getD_cons_succ]
      exact ih (by simpa using h)

theorem getD_set_self {α : Type} {l : List α} {i : Nat} (h : i < l.length)
    (a d : α) : (l.set i a).getD i d = a := by
  induction l generalizing i with
  | nil => simp at h
  | cons x rest ih =>
    cases i with
    | zero => simp
    | succ n =>
      rw [List.set_cons_succ, List.getD_cons_succ]
      exact ih (by simpa using h)

theorem set_getD_self {α : Type} {l : List α} {i : Nat} (d : α) :
    l.set i (l.getD i d) = l := by
  induction l generalizing i with
  | nil => simp
  | cons x rest ih =>
    cases i with
    | zero => simp
    | succ n =>
      rw [List.getD_cons_succ, List.set_cons_succ, ih]

/-! ### Helper lemmas about the hook operations -/

theorem jsOr_some (t : String) : jsOr (some t) "" = t := by
  show (if t = ("") then ("") else t) = t
  split
  · next h => exact h.symm
  · rfl

theorem countP_resolveOptionsFrom (i1 k : Nat) (qs : List QuickReplyOption) :
    (resolveOptionsFrom i1 k qs).countP (fun q => q.clicked == some true) =
      if k ≤ i1 ∧ i1 < k + qs.length then 1 else 0 := by
  induction qs generalizing k with
  | nil =>
    simp only [resolveOptionsFrom, List.countP_nil, List.length_nil]
    rw [if_neg (by omega)]
  | cons q rest ih =>
    simp only [resolveOptionsFrom, List.countP_cons, ih (k + 1),
      List.length_cons]
    cases hik : i1 == k with
    | true =>
      have hik' : i1 = k := beq_iff_eq.mp hik
      rw [if_neg (by omega : ¬(k + 1 ≤ i1 ∧ i1 < k + 1 + rest.length)),
        if_pos (show (((some true : Option Bool) == some true) = true) by decide),
        if_pos (by omega : k ≤ i1 ∧ i1 < k + (rest.length + 1))]
    | false =>
      have hik' : i1 ≠ k := beq_eq_false_iff_ne.mp hik
      rw [if_neg (show ¬(((some false : Option Bool) == some true) = true) by
        decide)]
      by_cases hin : k + 1 ≤ i1 ∧ i1 < k + 1 + rest.length
      · rw [if_pos hin, if_pos (by omega : k ≤ i1 ∧ i1 < k + (rest.length + 1))]
      · rw [if_neg hin, if_neg (by omega : ¬(k ≤ i1 ∧ i1 < k + (rest.length + 1)))]

theorem clickedCount_resolveOptions (qs : List QuickReplyOption) (i1 : Nat)
    (h : i1 < qs.length) : clickedCount (resolveOptions qs i1) = 1 := by
  rw [clickedCount, resolveOptions, countP_resolveOptionsFrom]
  rw [if_pos (by omega)]

theorem length_resolveOptionsFrom (i1 k : Nat) (qs : List QuickReplyOption) :
    (resolveOptionsFrom i1 k qs).length = qs.length := by
  induction qs generalizing k with
  | nil => rfl
  | cons q rest ih => simp [resolveOptionsFrom, ih (k + 1)]

/-- A command-prefixed click on a message that is found in the history:
the message is resolved in place and kept, the utterance's text message
is appended, and a single `user_uttered` event is emitted. -/
theorem onClick_keep (st : HookState) (mid i1 index : Nat) (payload : String)
    (hfind : findIndex (fun v => v.id == mid) st.history = some index)
    (hp : startsWithSlash payload = true) :
    onClick st mid i1 payload =
      Except.ok (clickKeepState st index i1 payload,
                 [OutEvent.user_uttered (jsOr st.session ("")) payload]) := by
  have hlt := findIndex_lt_length hfind
  have hfind2 := findIndex_append_some [textMessage st payload] hfind
  simp only [onClick, utter, hp, if_true]
  rw [hfind2]
  simp only [Except.ok.injEq, Prod.mk.injEq, and_true]
  rw [getD_append_of_lt hlt, set_append_of_lt hlt]
  rfl

/-- A non-command click on any id: every history entry with that id is
filtered out, the utterance's text message is appended (it survives the
filter because its id is fresh), and a single `user_uttered` event is
emitted. -/
theorem onClick_remove (st : HookState) (mid i1 : Nat) (payload : String)
    (hfresh : mid ≠ st.nextId)
    (hp : startsWithSlash payload = false) :
    onClick st mid i1 payload =
      Except.ok (clickRemoveState st mid payload,
                 [OutEvent.user_uttered (jsOr st.session ("")) payload]) := by
  simp only [onClick, utter, hp, Bool.false_eq_true, if_false]
  simp only [Except.ok.injEq, Prod.mk.injEq, and_true]
  rw [List.filter_append]
  have htm : ((textMessage st payload).id != mid) = true := by
    simp only [textMessage, bne_iff_ne, ne_eq]
    omega
  simp only [List.filter_cons, htm, if_true, List.filter_nil]
  rfl

/-- A command-prefixed click on an id that is nowhere in the history
reaches the `throw` of line 154. -/
theorem onClick_notFound (st : HookState) (mid i1 : Nat) (payload : String)
    (hfind : findIndex (fun v => v.id == mid) st.history = none)
    (hfresh : mid ≠ st.nextId)
    (hp : startsWithSlash payload = true) :
    onClick st mid i1 payload = Except.error ("Couldnt find") := by
  have htm : findIndex (fun v => v.id == mid) [textMessage st payload] =
      none := by
    rw [findIndex_cons]
    have : ((textMessage st payload).id == mid) = false := by
      simp only [textMessage]
      exact beq_eq_false_iff_ne.mpr (fun hc => hfresh hc.symm)
    rw [this]
    rfl
  simp only [onClick, utter, hp, if_true]
  rw [findIndex_append_none hfind htm]

/-- Handling any event other than a `session_confirm` leaves the stored
session token unchanged, and every `user_uttered` event it emits carries
`sessionRef.current || ""` of the pre-state. -/
theorem handleEvent_session_inv {cfg : RasaConfig} {st st1 : HookState}
    {ev : InEvent} {out1 : List OutEvent}
    (hev : isSessionConfirm ev = false)
    (h : handleEvent cfg st ev = Except.ok (st1, out1)) :
    st1.session = st.session ∧
      out1.all (utteredSessionIs (jsOr st.session (""))) = true := by
  cases ev with
  | connect =>
    simp only [handleEvent, Except.ok.injEq, Prod.mk.injEq] at h
    obtain ⟨h1, h2⟩ := h
    subst h1; subst h2
    exact ⟨rfl, by simp [utteredSessionIs]⟩
  | session_confirm sid => simp [isSessionConfirm] at hev
  | bot_uttered m =>
    simp only [handleEvent, Except.ok.injEq, Prod.mk.injEq] at h
    obtain ⟨h1, h2⟩ := h
    subst h1; subst h2
    exact ⟨rfl, rfl⟩
  | disconnect =>
    simp only [handleEvent, Except.ok.injEq, Prod.mk.injEq] at h
    obtain ⟨h1, h2⟩ := h
    subst h1; subst h2
    exact ⟨rfl, rfl⟩
  | error =>
    simp only [handleEvent, Except.ok.injEq, Prod.mk.injEq] at h
    obtain ⟨h1, h2⟩ := h
    subst h1; subst h2
    exact ⟨rfl, rfl⟩
  | utterCall message =>
    simp only [handleEvent, utter, Except.ok.injEq, Prod.mk.injEq] at h
    obtain ⟨h1, h2⟩ := h
    subst h1; subst h2
    refine ⟨rfl, ?_⟩
    simp [utteredSessionIs]
  | click mid i1 payload =>
    simp only [handleEvent, onClick, utter] at h
    by_cases hp : startsWithSlash payload
    · rw [if_pos hp] at h
      cases hfi : findIndex (fun v => v.id == mid)
          (st.history ++ [textMessage st payload]) with
      | none => rw [hfi] at h; exact absurd h (by simp)
      | some index =>
        rw [hfi] at h
        simp only [Except.ok.injEq, Prod.mk.injEq] at h
        obtain ⟨h1, h2⟩ := h
        subst h1; subst h2
        refine ⟨rfl, ?_⟩
        simp [utteredSessionIs]
    · rw [if_neg hp] at h
      simp only [Except.ok.injEq, Prod.mk.injEq] at h
      obtain ⟨h1, h2⟩ := h
      subst h1; subst h2
      refine ⟨rfl, ?_⟩
      simp [utteredSessionIs]

/-- Over any run free of `session_confirm` events the session token is
unchanged and every emitted `user_uttered` event carries
`sessionRef.current || ""` of the starting state. -/
theorem run_session_inv {cfg : RasaConfig} {evs : List InEvent}
    {st st2 : HookState} {out : List OutEvent}
    (hnoc : ∀ ev ∈ evs, isSessionConfirm ev = false)
    (h : run cfg st evs = Except.ok (st2, out)) :
    st2.session = st.session ∧
      out.all (utteredSessionIs (jsOr st.session (""))) = true := by
  induction evs generalizing st out with
  | nil =>
    simp only [run, Except.ok.injEq, Prod.mk.injEq] at h
    obtain ⟨h1, h2⟩ := h
    subst h1; subst h2
    exact ⟨rfl, rfl⟩
  | cons ev rest ih =>
    simp only [run] at h
    cases he : handleEvent cfg st ev with
    | error e => rw [he] at h; exact absurd h (by simp)
    | ok p =>
      obtain ⟨stm, outm⟩ := p
      rw [he] at h
      simp only [] at h
      cases hr : run cfg stm rest with
      | error e => rw [hr] at h; exact absurd h (by simp)
      | ok p2 =>
        obtain ⟨stf, outf⟩ := p2
        rw [hr] at h
        simp only [Except.ok.injEq, Prod.mk.injEq] at h
        obtain ⟨h1, h2⟩ := h
        subst h1; subst h2
        have hev := hnoc ev (List.mem_cons_self ev rest)
        have hstep := handleEvent_session_inv hev he
        have hrest := ih (fun e hm => hnoc e (List.mem_cons_of_mem ev hm)) hr
        refine ⟨hrest.1.trans hstep.1, ?_⟩
        rw [List.all_append, hstep.2]
        rw [hstep.1] at hrest
        rw [hrest.2]
        rfl

/-! ### Concrete fixtures used by witnesses and counterexamples -/

/-- Two quick-reply options: a command-prefixed one and a plain one. -/
def qrOptions : List QuickReplyOption :=
  [{ content_type := ("text"), title := ("Yes"), payload := ("/yes"),
     clicked := some false },
   { content_type := ("text"), title := ("No"), payload := ("no thanks"),
     clicked := some false }]

/-- A quick-reply message as it sits in the history after a
`bot_uttered` event. -/
def qrMsg : RasaMessage :=
  { text := some ("choose")
    quick_replies := some qrOptions
    attachment := none
    clicked := none
    id := 0
    received := true
    type := RasaMessageType.quickReply }

/-- A hook state holding just `qrMsg`. -/
def stQR : HookState :=
  { status := RasaStatus.connected
    history := [qrMsg]
    session := some ("abc")
    nextId := 1 }

/-- A state with an empty history: no message id is present. -/
def stEmpty : HookState :=
  { status := RasaStatus.connected
    history := []
    session := some ("abc")
    nextId := 1 }

/-- Two command-prefixed quick-reply options. -/
def qr2Options : List QuickReplyOption :=
  [{ content_type := ("text"), title := ("Small"), payload := ("/small"),
     clicked := some false },
   { content_type := ("text"), title := ("Large"), payload := ("/large"),
     clicked := some false }]

/-- A second quick-reply message, with both options command-prefixed. -/
def qr2Msg : RasaMessage :=
  { text := some ("size")
    quick_replies := some qr2Options
    attachment := none
    clicked := none
    id := 3
    received := true
    type := RasaMessageType.quickReply }

/-- A hook state holding just `qr2Msg`. -/
def stQR2 : HookState :=
  { status := RasaStatus.connected
    history := [qr2Msg]
    session := none
    nextId := 4 }

/-- A state whose only message is an already-resolved quick-reply group
(option 0 clicked). -/
def stResolved : HookState :=
  { status := RasaStatus.connected
    history := [resolveMessage qrMsg 0]
    session := some ("abc")
    nextId := 5 }

/-- Like `stResolved` but with no session token and another counter. -/
def stResolved2 : HookState :=
  { status := RasaStatus.connected
    history := [resolveMessage qrMsg 0]
    session := none
    nextId := 7 }

/-- A hook configured with `sendOnConnect = "/greet"`. -/
def cfgGreet : RasaConfig := { sendOnConnect := some ("/greet") }

/-- A hook with no `sendOnConnect` configured. -/
def cfgNone : RasaConfig := { sendOnConnect := none }

/-- A connected state with a confirmed session token. -/
def stAbc : HookState :=
  { status := RasaStatus.connected
    history := []
    session := some ("abc")
    nextId := 0 }

/-! ### The claims -/

/-- **C1.** For every click on an option of a quick-reply message in the
history: if the captured payload starts with `/`, the message stays in
the history, mutated in place into its resolved (clicked) state, and if
the payload does not start with `/`, the message is removed from the
history by a filter, which keeps every remaining message in its relative
order (the click's own utterance also appends a fresh text message and
emits one `user_uttered` event, in both branches).  `hfresh` states that
the clicked message id differs from the id the new text message receives
(uuid freshness). -/
theorem C1_click_keep_or_remove (st : HookState) (mid i1 index : Nat)
    (payload : String)
    (hfind : findIndex (fun v => v.id == mid) st.history = some index)
    (hfresh : mid ≠ st.nextId) :
    (startsWithSlash payload = true →
      onClick st mid i1 payload =
        Except.ok (clickKeepState st index i1 payload,
          [OutEvent.user_uttered (jsOr st.session ("")) payload]) ∧
      (resolveMessage (st.history.getD index default) i1).id = mid ∧
      (resolveMessage (st.history.getD index default) i1).clicked =
        some true) ∧
    (startsWithSlash payload = false →
      onClick st mid i1 payload =
        Except.ok (clickRemoveState st mid payload,
          [OutEvent.user_uttered (jsOr st.session ("")) payload]) ∧
      ∀ r ∈ (clickRemoveState st mid payload).history, r.id ≠ mid) := by
  constructor
  · intro hp
    refine ⟨onClick_keep st mid i1 index payload hfind hp, ?_, rfl⟩
    have hsat := findIndex_getD default hfind
    have hid : (st.history.getD index default).id = mid := by
      simpa using hsat
    simpa [resolveMessage] using hid
  · intro hp
    refine ⟨onClick_remove st mid i1 payload hfresh hp, ?_⟩
    intro r hr
    simp only [clickRemoveState, List.mem_append] at hr
    rcases hr with hr | hr
    · have := List.of_mem_filter hr
      simpa using this
    · simp only [List.mem_singleton] at hr
      subst hr
      simpa [textMessage] using fun hc => hfresh hc.symm

/-- Witness for C1: in `stQR`, clicking the `/yes` option keeps the
message resolved; clicking the `no thanks` option removes it. -/
theorem C1_witness :
    (onClick stQR 0 0 ("/yes") =
      Except.ok (clickKeepState stQR 0 0 ("/yes"),
        [OutEvent.user_uttered (jsOr stQR.session ("")) ("/yes")])) ∧
    (onClick stQR 0 1 ("no thanks") =
      Except.ok (clickRemoveState stQR 0 ("no thanks"),
        [OutEvent.user_uttered (jsOr stQR.session ("")) ("no thanks")])) :=
  ⟨((C1_click_keep_or_remove stQR 0 0 0 ("/yes") (by decide)
      (by decide)).1 (by decide)).1,
   ((C1_click_keep_or_remove stQR 0 1 0 ("no thanks") (by decide)
      (by decide)).2 (by decide)).1⟩

/-- **C2.** Classification of a raw inbound payload is total (it is a
Lean function) and follows the strict priority `attachment`, then
`quick_replies`, then `text`, else `unknown`; the four biconditionals
pin down the result of `getType` exactly, so exactly one kind is
returned for every payload shape. -/
theorem C2_classification_priority (m : SocketIOUtterBot) :
    (getType m = RasaMessageType.attachment ↔ m.attachment.isSome = true) ∧
    (getType m = RasaMessageType.quickReply ↔
      (m.attachment = none ∧ m.quick_replies.isSome = true)) ∧
    (getType m = RasaMessageType.text ↔
      (m.attachment = none ∧ m.quick_replies = none ∧
       m.text.isSome = true)) ∧
    (getType m = RasaMessageType.unknown ↔
      (m.attachment = none ∧ m.quick_replies = none ∧ m.text = none)) := by
  obtain ⟨t, q, a, c⟩ := m
  cases a <;> cases q <;> cases t <;> simp [getType]

/-- **C3 counterexample.** The claim asserts the history append happens
before the outbound `user_uttered` event is emitted; in the source the
emit (line 104) precedes the append (line 106).  At the concrete call
`utter("hello")` from the freshly mounted state, the emit is effect 0
and the append is effect 2, so the append does not precede the emit. -/
theorem C3_counterexample :
    (utterEffects initState ("hello")).findIdx isEmitUser = 0 ∧
    (utterEffects initState ("hello")).findIdx isAppend = 2 ∧
    ¬ ((utterEffects initState ("hello")).findIdx isAppend <
       (utterEffects initState ("hello")).findIdx isEmitUser) := by
  decide

/-- **C3 (amended).** Every call `utter(payload)` appends exactly one
user-authored text message (`received = false`), emits exactly one
outbound `user_uttered` event — the emit happening before the append,
not after — and transitions the status to `waitingForResponse`. -/
theorem C3_utter_appends_once_after_emit (st : HookState)
    (message : String) :
    utterEffects st message =
      [Effect.emit (OutEvent.user_uttered (jsOr st.session ("")) message),
       Effect.setStatus RasaStatus.waitingForResponse,
       Effect.appendHistory (textMessage st message)] ∧
    (utterEffects st message).countP isAppend = 1 ∧
    (utterEffects st message).countP isEmitUser = 1 ∧
    (utterEffects st message).findIdx isEmitUser <
      (utterEffects st message).findIdx isAppend ∧
    (textMessage st message).received = false ∧
    (textMessage st message).type = RasaMessageType.text ∧
    (textMessage st message).text = some message ∧
    runEffects st (utterEffects st message) = (utter st message).1 ∧
    (utter st message).1.status = RasaStatus.waitingForResponse ∧
    (utter st message).1.history = st.history ++ [textMessage st message] ∧
    (utter st message).2 =
      [OutEvent.user_uttered (jsOr st.session ("")) message] := by
  refine ⟨rfl, rfl, rfl, ?_, rfl, rfl, rfl, rfl, rfl, rfl, rfl⟩
  show (0 : Nat) < 2
  decide

/-- **C4.** After any click that leaves a quick-reply message in the
history (ie. a command-prefixed click; the other branch removes it, see
C1), the message is in its resolved state: its own `clicked` flag is
`true` and exactly one of its options has `clicked = true`.  The
pre-state `st` is arbitrary — in particular it may itself be the result
of any earlier sequence of clicks on the same group — so the invariant
holds after every click of every click sequence. -/
theorem C4_resolved_exactly_one (st : HookState) (mid i1 index : Nat)
    (payload : String) (qs : List QuickReplyOption)
    (hfind : findIndex (fun v => v.id == mid) st.history = some index)
    (hqs : (st.history.getD index default).quick_replies = some qs)
    (hlen : i1 < qs.length)
    (hp : startsWithSlash payload = true) :
    onClick st mid i1 payload =
      Except.ok (clickKeepState st index i1 payload,
        [OutEvent.user_uttered (jsOr st.session ("")) payload]) ∧
    (clickKeepState st index i1 payload).history.getD index default =
      resolveMessage (st.history.getD index default) i1 ∧
    (resolveMessage (st.history.getD index default) i1).clicked =
      some true ∧
    (resolveMessage (st.history.getD index default) i1).quick_replies =
      some (resolveOptions qs i1) ∧
    clickedCount (resolveOptions qs i1) = 1 := by
  have hlt := findIndex_lt_length hfind
  refine ⟨onClick_keep st mid i1 index payload hfind hp, ?_, rfl, ?_,
    clickedCount_resolveOptions qs i1 hlen⟩
  · show ((st.history.set index
        (resolveMessage (st.history.getD index default) i1))
          ++ [textMessage st payload]).getD index default = _
    rw [getD_append_of_lt (by rw [List.length_set]; exact hlt),
      getD_set_self hlt]
  · show ((st.history.getD index default).quick_replies.map
        (fun l => resolveOptions l i1)) = some (resolveOptions qs i1)
    rw [hqs]
    rfl

/-- Witness for C4: clicking option 1 of `qr2Msg` in `stQR2` resolves
the group with exactly one clicked option. -/
theorem C4_witness :
    onClick stQR2 3 1 ("/large") =
      Except.ok (clickKeepState stQR2 0 1 ("/large"),
        [OutEvent.user_uttered (jsOr stQR2.session ("")) ("/large")]) ∧
    clickedCount (resolveOptions qr2Options 1) = 1 :=
  ⟨(C4_resolved_exactly_one stQR2 3 1 0 ("/large") qr2Options (by decide)
      (by decide) (by decide) (by decide)).1,
   (C4_resolved_exactly_one stQR2 3 1 0 ("/large") qr2Options (by decide)
      (by decide) (by decide) (by decide)).2.2.2.2⟩

/-- **C5 counterexample.** The claim asserts a click on an option of a
quick-reply message whose id is absent from the history fails loudly
regardless of the payload; but with the non-command payload
`"no thanks"` and the absent id 0, `onClick` succeeds silently (the
removal filter simply matches nothing). -/
theorem C5_counterexample :
    onClick stEmpty 0 0 ("no thanks") =
      Except.ok (clickRemoveState stEmpty 0 ("no thanks"),
        [OutEvent.user_uttered (jsOr stEmpty.session ("")) ("no thanks")]) ∧
    (clickRemoveState stEmpty 0 ("no thanks")).history =
      [textMessage stEmpty ("no thanks")] := by
  constructor
  · rfl
  · rfl

/-- **C5 (amended).** A click on an option of a quick-reply message
whose id is absent from the history fails loudly with the
`Couldnt find` throw only when the payload starts with `/`; when it
does not, the click is processed without any error and the removal is a
silent no-op (only the utterance's text message is appended). -/
theorem C5_unknown_id (st : HookState) (mid i1 : Nat) (payload : String)
    (hfind : findIndex (fun v => v.id == mid) st.history = none)
    (hfresh : mid ≠ st.nextId) :
    (startsWithSlash payload = true →
      onClick st mid i1 payload = Except.error ("Couldnt find")) ∧
    (startsWithSlash payload = false →
      onClick st mid i1 payload =
        Except.ok ({ st with
                      status := RasaStatus.waitingForResponse
                      history := st.history ++ [textMessage st payload]
                      nextId := st.nextId + 1 },
          [OutEvent.user_uttered (jsOr st.session ("")) payload])) := by
  constructor
  · intro hp
    exact onClick_notFound st mid i1 payload hfind hfresh hp
  · intro hp
    rw [onClick_remove st mid i1 payload hfresh hp]
    have hfil : st.history.filter (fun r => r.id != mid) = st.history := by
      apply List.filter_eq_self.mpr
      intro a ha
      have := findIndex_none_all hfind a ha
      simpa using this
    simp [clickRemoveState, hfil]

/-- Witness for C5 (amended): at the absent id 99 in `stEmpty`, the
command payload throws and the plain payload silently succeeds. -/
theorem C5_witness :
    onClick stEmpty 99 0 ("/yes") = Except.error ("Couldnt find") ∧
    onClick stEmpty 99 0 ("hello") =
      Except.ok ({ stEmpty with
                    status := RasaStatus.waitingForResponse
                    history := stEmpty.history ++ [textMessage stEmpty ("hello")]
                    nextId := stEmpty.nextId + 1 },
        [OutEvent.user_uttered (jsOr stEmpty.session ("")) ("hello")]) :=
  ⟨(C5_unknown_id stEmpty 99 0 ("/yes") (by decide) (by decide)).1
      (by decide),
   (C5_unknown_id stEmpty 99 0 ("hello") (by decide) (by decide)).2
      (by decide)⟩

/-- **C6 counterexample.** The claim asserts a second click on an
already-resolved group changes neither the history nor the set of
emitted events; but re-clicking the already-clicked option 0 of the
resolved group in `stResolved` emits a `user_uttered` event and grows
the history by one text message. -/
theorem C6_counterexample :
    onClick stResolved 0 0 ("/yes") =
      Except.ok ({ stResolved with
                    status := RasaStatus.waitingForResponse
                    history := stResolved.history ++
                      [textMessage stResolved ("/yes")]
                    nextId := 6 },
        [OutEvent.user_uttered ("abc") ("/yes")]) ∧
    stResolved.history ++ [textMessage stResolved ("/yes")] ≠
      stResolved.history ∧
    ([OutEvent.user_uttered ("abc") ("/yes")] : List OutEvent) ≠ [] := by
  refine ⟨by rfl, by decide, by decide⟩

/-- **C6 (amended).** A second click on the already-clicked option of a
resolved quick-reply group leaves that message itself unchanged
(re-resolution of the same option is idempotent), but it is not a
global no-op: it still emits the option's payload as a `user_uttered`
event, appends one user text message to the history, and sets the
status to `waitingForResponse`.  `hres` states the message at `index`
is already in its resolved state for option `i1`. -/
theorem C6_second_click_same_option (st : HookState) (mid i1 index : Nat)
    (payload : String)
    (hfind : findIndex (fun v => v.id == mid) st.history = some index)
    (hres : st.history.getD index default =
      resolveMessage (st.history.getD index default) i1)
    (hp : startsWithSlash payload = true) :
    onClick st mid i1 payload =
      Except.ok ({ st with
                    status := RasaStatus.waitingForResponse
                    history := st.history ++ [textMessage st payload]
                    nextId := st.nextId + 1 },
        [OutEvent.user_uttered (jsOr st.session ("")) payload]) := by
  rw [onClick_keep st mid i1 index payload hfind hp]
  simp only [clickKeepState]
  rw [← hres, set_getD_self]

/-- Witness for C6 (amended): re-clicking option 0 in `stResolved2`. -/
theorem C6_witness :
    onClick stResolved2 0 0 ("/yes") =
      Except.ok ({ stResolved2 with
                    status := RasaStatus.waitingForResponse
                    history := stResolved2.history ++
                      [textMessage stResolved2 ("/yes")]
                    nextId := stResolved2.nextId + 1 },
        [OutEvent.user_uttered (jsOr stResolved2.session ("")) ("/yes")]) :=
  C6_second_click_same_option stResolved2 0 0 0 ("/yes") (by decide)
    (by decide) (by decide)

/-- **C7.** Once a session token `t` is stored, every `user_uttered`
event emitted during any subsequent run that contains no further
`session_confirm` event carries exactly `t` as its session id (and the
stored token is still `t` afterwards) — that is, the token delivered by
a `session_confirm` is used verbatim until a later confirm replaces
it. -/
theorem C7_session_token_verbatim (cfg : RasaConfig) (st : HookState)
    (t : String) (evs : List InEvent) (st2 : HookState)
    (out : List OutEvent)
    (hsess : st.session = some t)
    (hnoc : ∀ ev ∈ evs, isSessionConfirm ev = false)
    (hrun : run cfg st evs = Except.ok (st2, out)) :
    st2.session = some t ∧ out.all (utteredSessionIs t) = true := by
  have h := run_session_inv hnoc hrun
  rw [hsess, jsOr_some] at h
  exact h

/-- Witness for C7: a connect plus an `utter("hi")` after the token
`"abc"` was stored; both emissions check out. -/
theorem C7_witness :
    ([OutEvent.session_request (some ("abc")),
      OutEvent.user_uttered ("abc") ("hi")].all
        (utteredSessionIs ("abc"))) = true :=
  (C7_session_token_verbatim cfgNone stAbc ("abc")
      [InEvent.connect, InEvent.utterCall ("hi")]
      { status := RasaStatus.waitingForResponse
        history := [{ text := some ("hi"), quick_replies := none,
                      attachment := none, clicked := none, id := 0,
                      received := false, type := RasaMessageType.text }]
        session := some ("abc")
        nextId := 1 }
      [OutEvent.session_request (some ("abc")),
       OutEvent.user_uttered ("abc") ("hi")]
      (by rfl) (by decide) (by rfl)).2

/-- **C8 counterexample.** The claim asserts the configured
`sendOnConnect` utterance is emitted exactly once; but every handled
`session_confirm` re-sends it, so a run in which the server confirms
twice (eg. after a reconnection handshake) emits it twice. -/
theorem C8_counterexample :
    (outOf (run cfgGreet initState
        [InEvent.session_confirm ("a"), InEvent.session_confirm ("b")])).countP
      (fun e => match e with
        | OutEvent.user_uttered _ m => m == "/greet"
        | _ => false) = 2 := by
  decide

/-- **C8 (amended).** Each time a `session_confirm` is handled with a
(truthy) `sendOnConnect` configured, exactly one `user_uttered` event
carrying the just-confirmed session id and the configured message is
emitted, and exactly one corresponding text history entry is appended
— and the hook emits it only then: no transport event (connect,
bot_uttered, disconnect, error) ever emits a `user_uttered`, so nothing
is sent before the first confirm. -/
theorem C8_sendOnConnect_per_confirm (cfg : RasaConfig) (st : HookState)
    (sid : String) (h : jsTruthy cfg.sendOnConnect = true) :
    (handleEvent cfg st (InEvent.session_confirm sid) =
      Except.ok ({ st with
                    session := some sid
                    status := RasaStatus.waitingForResponse
                    history := st.history ++
                      [textMessage st ((cfg.sendOnConnect).getD (""))]
                    nextId := st.nextId + 1 },
        [OutEvent.user_uttered sid ((cfg.sendOnConnect).getD (""))])) ∧
    (∀ (st2 st3 : HookState) (ev : InEvent) (out : List OutEvent),
      isTransportEvent ev = true →
      handleEvent cfg st2 ev = Except.ok (st3, out) →
      out.countP isUserUttered = 0) := by
  constructor
  · simp only [handleEvent, h, if_true, utter]
    rw [jsOr_some]
    rfl
  · intro st2 st3 ev out hev heq
    cases ev with
    | connect =>
      simp only [handleEvent, Except.ok.injEq, Prod.mk.injEq] at heq
      rw [← heq.2]
      rfl
    | bot_uttered m =>
      simp only [handleEvent, Except.ok.injEq, Prod.mk.injEq] at heq
      rw [← heq.2]
      rfl
    | disconnect =>
      simp only [handleEvent, Except.ok.injEq, Prod.mk.injEq] at heq
      rw [← heq.2]
      rfl
    | error =>
      simp only [handleEvent, Except.ok.injEq, Prod.mk.injEq] at heq
      rw [← heq.2]
      rfl
    | session_confirm sid2 => simp [isTransportEvent] at hev
    | utterCall msg => simp [isTransportEvent] at hev
    | click mid i1 payload => simp [isTransportEvent] at hev

/-- Witness for C8 (amended): confirming session `"abc"` with
`sendOnConnect = "/greet"` emits exactly the one greeting. -/
theorem C8_witness :
    handleEvent cfgGreet initState (InEvent.session_confirm ("abc")) =
      Except.ok ({ initState with
                    session := some ("abc")
                    status := RasaStatus.waitingForResponse
                    history := initState.history ++
                      [textMessage initState ((cfgGreet.sendOnConnect).getD (""))]
                    nextId := initState.nextId + 1 },
        [OutEvent.user_uttered ("abc") ((cfgGreet.sendOnConnect).getD (""))]) :=
  (C8_sendOnConnect_per_confirm cfgGreet initState ("abc") (by decide)).1

/-- **C9.** A transport disconnect event, from any connection state
(the state `st` is arbitrary, in particular `waitingForResponse`), sets
the status to `disconnected` while leaving the history log and the
stored session token untouched, and emits nothing. -/
theorem C9_disconnect_preserves (cfg : RasaConfig) (st : HookState) :
    handleEvent cfg st InEvent.disconnect =
      Except.ok ({ st with status := RasaStatus.disconnected }, []) ∧
    ({ st with status := RasaStatus.disconnected } : HookState).history =
      st.history ∧
    ({ st with status := RasaStatus.disconnected } : HookState).session =
      st.session ∧
    ({ st with status := RasaStatus.disconnected } : HookState).status =
      RasaStatus.disconnected :=
  ⟨rfl, rfl, rfl, rfl⟩

/-- **C10.** In any run from the freshly mounted state that contains no
`session_confirm` event, the session ref stays unset and every
`user_uttered` event emitted (eg. by `utter` calls) carries the empty
string as its `session_id` — the field is present with value `""`, not
omitted (`OutEvent.user_uttered` always carries a session id string in
the model, mirroring the object literal of lines 100-103). -/
theorem C10_empty_session_id (cfg : RasaConfig) (evs : List InEvent)
    (st2 : HookState) (out : List OutEvent)
    (hnoc : ∀ ev ∈ evs, isSessionConfirm ev = false)
    (hrun : run cfg initState evs = Except.ok (st2, out)) :
    st2.session = none ∧ out.all (utteredSessionIs ("")) = true := by
  have h := run_session_inv hnoc hrun
  exact h

/-- Witness for C10: connect then `utter("hello")` before any confirm
emits `user_uttered` with the empty session id. -/
theorem C10_witness :
    ([OutEvent.session_request none,
      OutEvent.user_uttered ("") ("hello")].all
        (utteredSessionIs (""))) = true :=
  (C10_empty_session_id cfgNone
      [InEvent.connect, InEvent.utterCall ("hello")]
      { status := RasaStatus.waitingForResponse
        history := [{ text := some ("hello"), quick_replies := none,
                      attachment := none, clicked := none, id := 0,
                      received := false, type := RasaMessageType.text }]
        session := none
        nextId := 1 }
      [OutEvent.session_request none, OutEvent.user_uttered ("") ("hello")]
      (by decide) (by rfl)).2

end ReactRasa
